import Mathlib

/-!
Verification of the trade-analysis pipeline (`src/trade_analysis.py`).

The development shallowly embeds the data-integration core of the script:
the CEPII pairwise normalizer (`prepare_cepii_data`), the country-code
mapper (`load_country_mapping`, `get_reporter_codes`), the UN Comtrade
fetch orchestration (`fetch_single`, `fetch_un_comtrade_data`) and the
merge engine (`merge_datasets`).  DataFrames are embedded as lists of
rows; pandas missing values (`NaN` / `pd.NA`) are `Option.none` or the
`Val.vna` constructor; external library calls that parse numbers
(`pd.to_numeric`) are abstracted as an explicit parser argument.  Python
string comparison (code-point lexicographic) is embedded as an
executable comparator `strLtb` and bridged to Mathlib's
`LinearOrder String`, whose order coincides with it.
-/

namespace TradeAnalysis

/-! ## Python string comparison, executable -/

/-- Lexicographic `<` on charcter lists, as Python compares strings
(code-point by code-point).  Executable and kernel-reducible, unlike the
iterator-based `String.ltb`. -/
def charsLt : List Char → List Char → Bool
  | _, [] => false
  | [], _ :: _ => true
  | a :: as, b :: bs => a < b || (a == b && charsLt as bs)

/-- Python `s1 < s2` on strings. -/
def strLtb (a b : String) : Bool :=
  charsLt a.data b.data

/-! ## Symmetric pair keys (`prepare_cepii_data` lines 270-294 and
`merge_datasets` lines 475-480) -/

/-- `df["key_a"] = np.where(df["iso3_o"] < df["iso3_d"], df["iso3_o"], df["iso3_d"])`. -/
def cepii_key_a (o d : String) : String :=
  if strLtb o d then o else d

/-- `df["key_b"] = np.where(df["iso3_o"] < df["iso3_d"], df["iso3_d"], df["iso3_o"])`. -/
def cepii_key_b (o d : String) : String :=
  if strLtb o d then d else o

/-- `collapsed["cepii_key"] = collapsed["key_a"] + "-" + collapsed["key_b"]`:
the joined symmetric key emitted by the pairwise normalizer. -/
def cepii_key (o d : String) : String :=
  cepii_key_a o d ++ "-" ++ cepii_key_b o d

/-- The symmetric key the merge engine computes on trade rows:
`np.where(R < P, R + "-" + P, P + "-" + R)` for reporter `R`, partner `P`. -/
def cepii_merge_key (r p : String) : String :=
  if strLtb r p then r ++ "-" ++ p else p ++ "-" ++ r

/-! ## CEPII pairwise normalizer (`prepare_cepii_data`, lines 209-301)

The CSV is read with `dtype=str`, so every cell is a string or missing
(`NaN`); a raw row is an association list from column name to an
optional string.  After the `pd.to_numeric(..., errors="coerce")` loop,
a cell is a string, a number, or missing (`Val`). -/

/-- A cell of a processed frame: a string, a numeric value, or missing. -/
inductive Val where
  | vstr : String → Val
  | vnum : Rat → Val
  | vna : Val
deriving DecidableEq, Repr

/-- A raw CSV row (`dtype=str`): column name to optional string cell. -/
abbrev RawRow := List (String × Option String)

/-- Cell access in a raw row; a column missing from the row reads as missing. -/
def cellOf (r : RawRow) (c : String) : Option String :=
  match r.find? (fun e => e.1 == c) with
  | some e => e.2
  | none => none

/-- A CSV as read by `pd.read_csv(path, dtype=str)`. -/
structure CSV where
  cols : List String
  rows : List RawRow

/-- Outcome of locating and reading the CEPII source file. -/
inductive FileRead where
  | missing
  | unreadable
  | ok : CSV → FileRead

/-- The embedded list `all_cepii_cols` of known CEPII columns (lines 228-242). -/
def all_cepii_cols : List String :=
  ["iso3_o", "iso3_d",
   "distw_harmonic", "distw_arithmetic", "distw_harmonic_jh", "distw_arithmetic_jh", "dist",
   "main_city_source_o", "main_city_source_d", "distcap",
   "contig", "diplo_disagreement", "scaled_sci_2021",
   "comlang_off", "comlang_ethno",
   "comcol", "col45",
   "legal_old_o", "legal_old_d", "legal_new_o", "legal_new_d",
   "comleg_pretrans", "comleg_posttrans", "transition_legalchange",
   "comrelig",
   "heg_o", "heg_d",
   "col_dep_ever", "col_dep", "col_dep_end_year", "col_dep_end_conflict",
   "empire",
   "sibling_ever", "sibling", "sever_year", "sib_conflict"]

/-- `first_nonnull` (lines 275-280): the first value of the series that
is not `NaN`, else `NaN`. -/
def first_nonnull : List Val → Val
  | [] => .vna
  | v :: rest => if v = .vna then first_nonnull rest else v

/-- `cols_to_keep` (lines 245-251): the requested variables that exist in
the file, or every known non-identity column present when the request is
the wildcard `["all"]`. -/
def cepii_cols_to_keep (df : CSV) (cepii_variables : List String) : List String :=
  if cepii_variables = ["all"] then
    all_cepii_cols.filter (fun c => !(["iso3_o", "iso3_d"].contains c) && df.cols.contains c)
  else
    cepii_variables.filter (fun c => df.cols.contains c)

/-- `existing_cols` (line 256): the identity columns plus kept variables,
restricted to columns of the file. -/
def cepii_existing_cols (df : CSV) (cepii_variables : List String) : List String :=
  (["iso3_o", "iso3_d"] ++ cepii_cols_to_keep df cepii_variables).filter
    (fun c => df.cols.contains c)

/-- `num_cols` (lines 264-265): the kept columns that appear in the
embedded list of known CEPII columns (minus the identity columns);
only these get `pd.to_numeric` coercion. -/
def cepii_num_cols (df : CSV) (cepii_variables : List String) : List String :=
  (cepii_existing_cols df cepii_variables).filter
    (fun c => (all_cepii_cols.filter (fun c => !(["iso3_o", "iso3_d"].contains c))).contains c)

/-- One cell after `pd.to_numeric(col, errors="coerce")`: parseable
strings become numbers, everything else missing.  `p` models the pandas
numeric parser. -/
def coerceCell (p : String → Option Rat) (cell : Option String) : Val :=
  match cell with
  | none => .vna
  | some s =>
    match p s with
    | none => .vna
    | some q => .vnum q

/-- One cell of a column left uncoerced: strings stay strings. -/
def strCell (cell : Option String) : Val :=
  match cell with
  | none => .vna
  | some s => .vstr s

/-- The value of row `r` at column `c` after the coercion loop of
lines 267-268: coerced when `c` is one of `num_cols`, untouched otherwise. -/
def valAt (p : String → Option Rat) (num_cols : List String) (r : RawRow) (c : String) : Val :=
  if num_cols.contains c then coerceCell p (cellOf r c) else strCell (cellOf r c)

/-- The `(key_a, key_b)` pair of a row (lines 271-272).  The CEPII source
always carries both identity values; a missing identity cell is read as
`""` (the source would raise on the `np.where` comparison there, a case
outside every claim). -/
def rowKey (r : RawRow) : String × String :=
  ((cellOf r "iso3_o").getD "", (cellOf r "iso3_d").getD "") |>
    fun od => (cepii_key_a od.1 od.2, cepii_key_b od.1 od.2)

/-- Boolean `≤` on key pairs, lexicographic, as `groupby(["key_a","key_b"])`
sorts its group keys. -/
def keyLeb (a b : String × String) : Bool :=
  strLtb a.1 b.1 || (a.1 == b.1 && !strLtb b.2 a.2)

/-- The distinct group keys in sorted order, as produced by
`df.groupby(["key_a", "key_b"], as_index=False)` (pandas sorts group
keys; rows inside a group keep their encounter order). -/
def group_keys (rows : List RawRow) : List (String × String) :=
  ((rows.map rowKey).dedup).mergeSort keyLeb

/-- `prepare_cepii_data` (lines 209-301) over an already-located file:
returns the collapsed one-row-per-unordered-pair table, each output row
being the joined symmetric key with the aggregated kept columns.  An
empty list models the empty `DataFrame` returned on every fail-soft
path. -/
def prepare_cepii_data (p : String → Option Rat) (file : FileRead)
    (cepii_variables : List String) : List (String × List (String × Val)) :=
  match file with
  | .missing => []
  | .unreadable => []
  | .ok df =>
    if "iso3_o" ∈ cepii_existing_cols df cepii_variables ∧
        "iso3_d" ∈ cepii_existing_cols df cepii_variables then
      if (cepii_cols_to_keep df cepii_variables).filter (fun c => df.cols.contains c) = [] then
        []
      else
        (group_keys df.rows).map (fun k =>
          (k.1 ++ "-" ++ k.2,
           ((cepii_cols_to_keep df cepii_variables).filter (fun c => df.cols.contains c)).map
             (fun c => (c, first_nonnull ((df.rows.filter (fun r => rowKey r == k)).map
               (fun r => valAt p (cepii_num_cols df cepii_variables) r c))))))
    else []

/-- Specification-side reduction rule quoted by the spec: the first
non-null value of the sequence in encounter order, else missing. -/
def firstNonNullSpec (l : List Val) : Val :=
  ((l.filter (fun v => !(v == .vna))).head?).getD .vna

/-! ## Country-code mapper (`load_country_mapping`, `get_reporter_codes`,
lines 93-183) -/

/-- The embedded canonical ISO3 to numeric-code table
(`HARDCODED_COMTRADE_MAP`, lines 93-129), in source order.  A Python
dict literal keeps the last occurrence of a duplicated key ("JPN"
appears twice, with the same value); `dict_lookup` reproduces that by
scanning from the end. -/
def HARDCODED_COMTRADE_MAP : List (String × String) :=
  [("USA", "842"), ("THA", "764"), ("CHN", "156"), ("DEU", "276"), ("JPN", "392"),
   ("AFG", "004"), ("ALB", "008"), ("DZA", "012"), ("ASM", "016"), ("AND", "020"),
   ("AGO", "024"), ("ATG", "028"), ("AZE", "031"), ("ARG", "032"), ("AUS", "036"),
   ("AUT", "040"), ("BHS", "044"), ("BHR", "048"), ("BGD", "050"), ("ARM", "051"),
   ("BRB", "052"), ("BEL", "056"), ("BMU", "060"), ("BTN", "064"), ("BOL", "068"),
   ("BIH", "070"), ("BWA", "072"), ("BRA", "076"), ("BLZ", "084"), ("SLB", "090"),
   ("BRN", "096"), ("BGR", "100"), ("MMR", "104"), ("BDI", "108"), ("BLR", "112"),
   ("KHM", "116"), ("CMR", "120"), ("CAN", "124"), ("CPV", "132"), ("CAF", "140"),
   ("LKA", "144"), ("TCD", "148"), ("CHL", "152"), ("COL", "170"), ("COM", "174"),
   ("COG", "178"), ("CRI", "188"), ("HRV", "191"), ("CUB", "192"), ("CYP", "196"),
   ("CZE", "203"), ("BEN", "204"), ("DNK", "208"), ("DOM", "214"), ("ECU", "218"),
   ("EGY", "818"), ("SLV", "222"), ("GNQ", "226"), ("ERI", "232"), ("EST", "233"),
   ("ETH", "231"), ("FRO", "234"), ("FIN", "246"), ("FRA", "250"), ("GAB", "266"),
   ("GMB", "270"), ("GEO", "268"), ("GHA", "288"), ("GRC", "300"), ("GRL", "304"),
   ("GRD", "308"), ("GTM", "320"), ("GIN", "324"), ("GUY", "328"), ("HTI", "332"),
   ("HND", "340"), ("HKG", "344"), ("HUN", "348"), ("ISL", "352"), ("IND", "356"),
   ("IDN", "360"), ("IRN", "364"), ("IRQ", "368"), ("IRL", "372"), ("ISR", "376"),
   ("ITA", "380"), ("JAM", "388"), ("JPN", "392"), ("KAZ", "398"), ("JOR", "400"),
   ("KEN", "404"), ("PRK", "408"), ("KOR", "410"), ("KWT", "414"), ("KGZ", "417"),
   ("LAO", "418"), ("LVA", "428"), ("LBN", "422"), ("LSO", "426"), ("LBR", "430"),
   ("LBY", "434"), ("LTU", "440"), ("LUX", "442"), ("MAC", "446"), ("MDG", "450"),
   ("MWI", "454"), ("MYS", "458"), ("MDV", "462"), ("MLI", "466"), ("MLT", "470"),
   ("MRT", "478"), ("MUS", "480"), ("MEX", "484"), ("MNG", "496"), ("MAR", "504"),
   ("MOZ", "508"), ("NAM", "516"), ("NPL", "524"), ("NLD", "528"), ("NZL", "554"),
   ("NIC", "558"), ("NER", "562"), ("NGA", "566"), ("NOR", "578"), ("OMN", "512"),
   ("PAK", "586"), ("PAN", "591"), ("PNG", "598"), ("PRY", "600"), ("PER", "604"),
   ("PHL", "608"), ("POL", "616"), ("PRT", "620"), ("QAT", "634"), ("ROU", "642"),
   ("RUS", "643"), ("RWA", "646"), ("WSM", "882"), ("SMR", "674"), ("SAU", "682"),
   ("SEN", "686"), ("SYC", "690"), ("SLE", "694"), ("SGP", "702"), ("SVK", "703"),
   ("SVN", "705"), ("SOM", "706"), ("ZAF", "710"), ("ESP", "724"), ("SDN", "729"),
   ("SUR", "740"), ("SWE", "752"), ("CHE", "756"), ("SYR", "760"), ("TJK", "762"),
   ("TGO", "768"), ("TTO", "780"), ("TUN", "788"), ("TUR", "792"), ("TKM", "795"),
   ("UGA", "800"), ("UKR", "804"), ("ARE", "784"), ("GBR", "826"), ("TZA", "834"),
   ("URY", "858"), ("UZB", "860"), ("VEN", "862"), ("VNM", "704"), ("YEM", "887"),
   ("ZMB", "894"), ("ZWE", "716"), ("TWN", "158"), ("ESH", "732")]

/-- Lookup in a Python dict built from an association list (later
entries win, as in `dict(zip(...))` and `dict.update`). -/
def dict_lookup (m : List (String × String)) (k : String) : Option String :=
  (m.reverse.find? (fun e => e.1 == k)).map (fun e => e.2)

/-- The distinct keys of the dict. -/
def dict_keys (m : List (String × String)) : List String :=
  (m.map (fun e => e.1)).dedup

/-- `COUNTRY_MAP.values()`: one value per distinct key. -/
def dict_values (m : List (String × String)) : List String :=
  (dict_keys m).filterMap (dict_lookup m)

/-- Python `str.zfill(w)` on an unsigned code string. -/
def zfill (w : Nat) (s : String) : String :=
  if s.length < w then String.mk (List.replicate (w - s.length) '0') ++ s else s

/-- Python `str.upper()` for the ASCII range, executable. -/
def strUpper (s : String) : String :=
  String.mk (s.data.map Char.toUpper)

/-- `load_country_mapping` (lines 134-160).  `ext` is the outcome of
reading the external Excel mapping: `none` when the path is missing or
the read raised, otherwise the (ISO3, CountryCode) rows, which the code
strips, upper-cases and zero-fills.  A non-empty loaded dict is
overlaid with the embedded table (`loaded_map.update(HARDCODED...)`):
the embedded entry wins on every common key, which appending it with
last-entry-wins lookup reproduces.  An empty or failed load falls back
to the embedded table alone. -/
def load_country_mapping (ext : Option (List (String × String))) : List (String × String) :=
  match ext with
  | none => HARDCODED_COMTRADE_MAP
  | some rows =>
    if rows.isEmpty then HARDCODED_COMTRADE_MAP
    else (rows.map (fun e => (strUpper e.1.trim, zfill 3 e.2.trim))) ++ HARDCODED_COMTRADE_MAP

/-- Python `sorted(set(l))`: the distinct elements in ascending order. -/
def sorted_set (l : List String) : List String :=
  l.dedup.mergeSort (fun a b => !strLtb b a)

/-- `get_reporter_codes` (lines 165-177) over a resolved country map:
the sorted distinct numeric codes of the requested reporters (unmapped
ISO3 values are skipped), or of every mapped country for the wildcard
`["all"]`. -/
def get_reporter_codes (reporters : List String) (cmap : List (String × String)) : List String :=
  if reporters = ["all"] then sorted_set (dict_values cmap)
  else sorted_set (reporters.filterMap (fun iso => dict_lookup cmap (strUpper iso)))

/-- `get_partner_iso_list` (lines 180-183): `none` models the Python
`None` returned for the wildcard partner list. -/
def get_partner_iso_list (partners : List String) : Option (List String) :=
  if partners = ["all"] then none else some partners

/-! ## UN Comtrade fetch orchestration (`fetch_un_comtrade_data`,
lines 351-449)

A fetched trade record carries the columns the pipeline reads
(`reporterISO`, `partnerISO`, `period`, `cmdCode`, `primaryValue`);
further response columns ride along unread and are irrelevant to every
claim.  The remote call `comtradeapicall.getFinalData` plus the
response-shape normalization of lines 388-404 is abstracted as an
oracle from `(year, reporter code)` to either a row list or an error:
an `Except.error` models any exception raised inside the `try` block,
and `.ok []` models an empty or `None` response. -/

/-- One raw UN Comtrade row, before the merge engine coerces its year. -/
structure TradeRowRaw where
  reporterISO : String
  partnerISO : String
  period : String
  cmdCode : String
  primaryValue : Option Rat
deriving DecidableEq, Repr

/-- The fetch oracle: what the service returns for one (year, reporter)
unit. -/
abbrev FetchOracle := Nat → String → Except String (List TradeRowRaw)

/-- `fetch_single` (lines 364-407): any error for a single unit is
caught and the unit yields an empty frame. -/
def fetch_single (fetch : FetchOracle) (year : Nat) (code : String) : List TradeRowRaw :=
  match fetch year code with
  | .ok rows => rows
  | .error _ => []

/-- The run-wide concatenation (lines 409-440): per-year unit results
concatenated, then all years concatenated.  The thread pool of lines
417-424 completes units of a batch in a nondeterministic order; the
model lists units in submission order, which fixes one representative
order and leaves membership unaffected. -/
def comtrade_merged (fetch : FetchOracle) (years : List Nat) (codes : List String) :
    List TradeRowRaw :=
  years.flatMap (fun y => codes.flatMap (fun c => fetch_single fetch y c))

/-- The partner filter of lines 442-444 on a table that carries the
`partnerISO` column: rows whose partner is not in the requested list
are dropped, unless the list is the wildcard. -/
def partner_filter (partners : List String) (rows : List TradeRowRaw) : List TradeRowRaw :=
  match get_partner_iso_list partners with
  | none => rows
  | some keep => rows.filter (fun r => keep.contains r.partnerISO)

/-- `fetch_un_comtrade_data` (lines 351-449): resolve reporter codes,
return an empty table when none resolve, otherwise fetch every
(year, code) unit, concatenate, and apply the partner filter. -/
def fetch_un_comtrade_data (fetch : FetchOracle) (years : List Nat)
    (reporters partners : List String) (cmap : List (String × String)) : List TradeRowRaw :=
  if (get_reporter_codes reporters cmap).isEmpty then []
  else partner_filter partners (comtrade_merged fetch years (get_reporter_codes reporters cmap))

/-! ## Merge engine (`merge_datasets`, lines 454-494)

Embedded at two levels.  The row level types the three inputs and the
three left joins; there the trade table necessarily carries its key
columns.  The column level (`merge_year_step`) models the head of the
function on the trade table's header, where the unconditional
`df_trade["year"]` access of line 462 can raise. -/

/-- One reshaped World Bank row: a (country, year) pair with its
indicator columns. -/
structure WBRow where
  countryISO : String
  year : Int
  indicators : List (String × Option Rat)
deriving DecidableEq, Repr

/-- A trade row after line 462 coerced its year
(`pd.to_numeric(..., errors="coerce").astype("Int64")`). -/
structure TradeRow where
  reporterISO : String
  partnerISO : String
  year : Option Int
  cmdCode : String
  primaryValue : Option Rat
deriving DecidableEq, Repr

/-- Year coercion of line 462; `toNum` models the pandas numeric parser
(non-parseable becomes missing, never an error). -/
def coerce_trade_year (toNum : String → Option Int) (t : TradeRowRaw) : TradeRow :=
  ⟨t.reporterISO, t.partnerISO, toNum t.period, t.cmdCode, t.primaryValue⟩

/-- A row of the normalized CEPII table, exactly as `prepare_cepii_data`
emits it: the joined symmetric key with the kept attribute values. -/
abbrev CepiiRow := String × List (String × Val)

/-- One row of the merge engine's output: the trade row with the
reporter-side indicators, partner-side indicators and CEPII attributes
joined on (each `none` when unmatched, the left-outer missing values). -/
structure MergedRow where
  trade : TradeRow
  wb_reporter : Option WBRow
  wb_partner : Option WBRow
  cepii : Option CepiiRow
deriving DecidableEq, Repr

/-- A generic pandas left merge: every left row is kept; a left row with
matches produces one output row per match, an unmatched one produces a
single output row with missing right-hand values. -/
def left_join {α β γ : Type} (left : List α) (right : List β)
    (matchRow : α → β → Bool) (emb : α → Option β → γ) : List γ :=
  left.flatMap (fun a =>
    match right.filter (matchRow a) with
    | [] => [emb a none]
    | ms => ms.map (fun b => emb a (some b)))

/-- Join condition of `merge(wb_rep, on=["reporterISO", "year"])`.  The
World Bank year column is a non-null integer, so a trade row whose
coerced year is missing matches nothing, as in pandas. -/
def wb_match_reporter (t : TradeRow) (w : WBRow) : Bool :=
  t.reporterISO == w.countryISO && t.year == some w.year

/-- Join condition of `merge(wb_par, on=["partnerISO", "year"])`. -/
def wb_match_partner (t : TradeRow) (w : WBRow) : Bool :=
  t.partnerISO == w.countryISO && t.year == some w.year

/-- Join condition of the symmetric CEPII merge (line 484):
`left_on="cepii_merge_key", right_on="cepii_key"`. -/
def cepii_match (t : TradeRow) (c : CepiiRow) : Bool :=
  cepii_merge_key t.reporterISO t.partnerISO == c.1

/-- `merge_datasets` (lines 454-494) at the row level: an empty trade
table short-circuits; otherwise coerce years, left-join the World Bank
table on the reporter side and then the partner side, and, when the
CEPII table is non-empty, left-join it on the symmetric key (the two
identity columns are present by typing).  The `cepii` field `none`
throughout the no-CEPII path reflects that no CEPII columns are added
there. -/
def merge_datasets (toNum : String → Option Int) (df_wb : List WBRow)
    (df_trade : List TradeRowRaw) (df_cepii : List CepiiRow) : List MergedRow :=
  if df_trade.isEmpty then []
  else
    let tr := df_trade.map (coerce_trade_year toNum)
    let m1 := left_join tr df_wb (fun t w => wb_match_reporter t w) (fun t w => (t, w))
    let m2 := left_join m1 df_wb (fun x w => wb_match_partner x.1 w)
      (fun x w => (x.1, x.2, w))
    if df_cepii.isEmpty then m2.map (fun x => ⟨x.1, x.2.1, x.2.2, none⟩)
    else left_join m2 df_cepii (fun x c => cepii_match x.1 c)
      (fun x c => ⟨x.1, x.2.1, x.2.2, c⟩)

/-- The merged row the engine produces for one trade row when the two
indicator keys are unique: the first (hence only) match of each join,
`none` when unmatched.  Proved equal to the engine's output row under
the uniqueness hypotheses. -/
def merge_row (toNum : String → Option Int) (df_wb : List WBRow) (df_cepii : List CepiiRow)
    (traw : TradeRowRaw) : MergedRow :=
  ⟨coerce_trade_year toNum traw,
   (df_wb.filter (wb_match_reporter (coerce_trade_year toNum traw))).head?,
   (df_wb.filter (wb_match_partner (coerce_trade_year toNum traw))).head?,
   if df_cepii.isEmpty then none
   else (df_cepii.filter (cepii_match (coerce_trade_year toNum traw))).head?⟩

/-- The head of `merge_datasets` at column level (lines 456-462): a
trade frame that pandas calls empty (no rows or no columns) is returned
unchanged and the merge skipped; otherwise `period` is renamed to
`year` when present, and line 462 then reads column `year`, raising
`KeyError` when it does not exist. -/
def merge_year_step (tradeCols : List String) (nrows : Nat) : Except String (List String) :=
  if nrows = 0 ∨ tradeCols = [] then .ok tradeCols
  else
    if (if tradeCols.contains "period"
        then tradeCols.map (fun c => if c == "period" then "year" else c)
        else tradeCols).contains "year" then
      .ok (if tradeCols.contains "period"
        then tradeCols.map (fun c => if c == "period" then "year" else c)
        else tradeCols)
    else .error "KeyError: year"

/-! ## Concrete sample inputs for closed instances of the theorems -/

/-- A small numeric parser standing in for `pd.to_numeric` on sample data. -/
def pSample : String → Option Rat :=
  fun s => if s = "0" then some 0 else if s = "1" then some 1 else none

/-- A CEPII sample frame: the unordered pair (THA, USA) appears in both
orientations with complementary missing cells, plus a non-CEPII column
`note`. -/
def csvSample : CSV :=
  ⟨["iso3_o", "iso3_d", "contig", "note"],
   [[("iso3_o", some "USA"), ("iso3_d", some "THA"), ("contig", none), ("note", some "x")],
    [("iso3_o", some "THA"), ("iso3_d", some "USA"), ("contig", some "0"), ("note", none)]]⟩

/-- A fetch oracle whose (2015, "764") unit raises and every other unit
succeeds with one row. -/
def fetchSample : FetchOracle :=
  fun y c =>
    if y = 2015 ∧ c = "764" then .error "timeout"
    else .ok [⟨"USA", "THA", "2015", "01", some 100⟩]

/-- Two sample trade rows. -/
def tradeSample : List TradeRowRaw :=
  [⟨"THA", "USA", "2015", "01", some 100⟩, ⟨"USA", "FRA", "2015", "02", none⟩]

/-- A sample indicator table, unique per (country, year). -/
def wbSample : List WBRow :=
  [⟨"THA", 2015, [("NY.GDP.MKTP.CD", some 401)]⟩, ⟨"USA", 2015, []⟩]

/-- A sample normalized pairwise table, unique per symmetric key. -/
def cepiiSample : List CepiiRow :=
  [("THA-USA", [("contig", Val.vnum 0)])]

/-- A small year parser standing in for `pd.to_numeric` on sample years. -/
def toNumSample : String → Option Int :=
  fun s => if s = "2015" then some 2015 else none

end TradeAnalysis

namespace TradeAnalysis

/-! ## Bridge lemmas between the executable comparator and `LinearOrder String` -/

theorem charsLt_iff (as bs : List Char) :
    charsLt as bs = true ↔ List.Lex (· < ·) as bs := by
  induction as generalizing bs with
  | nil =>
    cases bs with
    | nil => simp [charsLt]
    | cons b bs => simpa [charsLt] using List.Lex.nil
  | cons a as ih =>
    cases bs with
    | nil => simp [charsLt]
    | cons b bs =>
      simp only [charsLt, Bool.or_eq_true, Bool.and_eq_true, beq_iff_eq,
        decide_eq_true_eq]
      constructor
      · rintro (h | ⟨rfl, h⟩)
        · exact List.Lex.rel h
        · exact List.Lex.cons ((ih bs).mp h)
      · intro h
        cases h with
        | rel h => exact Or.inl h
        | cons h => exact Or.inr ⟨rfl, (ih bs).mpr h⟩

theorem strLtb_iff (a b : String) : strLtb a b = true ↔ a < b := by
  rw [String.lt_iff_toList_lt]
  exact charsLt_iff a.data b.data

theorem strLtb_eq_false_iff (a b : String) : strLtb a b = false ↔ b ≤ a := by
  rw [← not_lt, ← strLtb_iff]
  simp

/-- C1: the symmetric pair key is order-invariant and equals
`min(A,B) + "-" + max(A,B)`, both for the key built by the pairwise
normalizer (`cepii_key`) and for the key formula the merge engine
applies to trade rows (`cepii_merge_key`). -/
theorem symmetric_key_invariant (A B : String) :
    cepii_key A B = cepii_key B A ∧
    cepii_key A B = min A B ++ "-" ++ max A B ∧
    cepii_merge_key A B = cepii_merge_key B A ∧
    cepii_merge_key A B = min A B ++ "-" ++ max A B := by
  rcases lt_trichotomy A B with h | rfl | h
  · have hAB : strLtb A B = true := (strLtb_iff A B).mpr h
    have hBA : strLtb B A = false := (strLtb_eq_false_iff B A).mpr h.le
    simp [cepii_key, cepii_key_a, cepii_key_b, cepii_merge_key, hAB, hBA,
      min_eq_left h.le, max_eq_right h.le]
  · have hAA : strLtb A A = false := (strLtb_eq_false_iff A A).mpr le_rfl
    simp [cepii_key, cepii_key_a, cepii_key_b, cepii_merge_key, hAA]
  · have hAB : strLtb A B = false := (strLtb_eq_false_iff A B).mpr h.le
    have hBA : strLtb B A = true := (strLtb_iff B A).mpr h
    simp [cepii_key, cepii_key_a, cepii_key_b, cepii_merge_key, hAB, hBA,
      min_eq_right h.le, max_eq_left h.le]

/-! ## Pairwise normalizer: first-non-null reduction, fail-soft paths -/

theorem first_nonnull_eq_spec (l : List Val) : first_nonnull l = firstNonNullSpec l := by
  induction l with
  | nil => rfl
  | cons v rest ih =>
    by_cases h : v = Val.vna
    · subst h
      simpa [first_nonnull, firstNonNullSpec] using ih
    · simp [first_nonnull, firstNonNullSpec, h]

theorem cepii_cols_to_keep_mem_cols {df : CSV} {vars : List String} {c : String}
    (h : c ∈ cepii_cols_to_keep df vars) : df.cols.contains c = true := by
  unfold cepii_cols_to_keep at h
  split at h
  · exact ((Bool.and_eq_true _ _).mp (List.mem_filter.mp h).2).2
  · exact (List.mem_filter.mp h).2

theorem prepare_cepii_mem (p : String → Option Rat) (df : CSV) (vars : List String)
    (c : String) (k : String × String)
    (ho : "iso3_o" ∈ df.cols) (hd : "iso3_d" ∈ df.cols)
    (hc : c ∈ cepii_cols_to_keep df vars)
    (hk : k ∈ df.rows.map rowKey) :
    ∃ vals, (k.1 ++ "-" ++ k.2, vals) ∈ prepare_cepii_data p (.ok df) vars ∧
      (c, first_nonnull ((df.rows.filter (fun r => rowKey r == k)).map
        (fun r => valAt p (cepii_num_cols df vars) r c))) ∈ vals := by
  have hcd : df.cols.contains c = true := cepii_cols_to_keep_mem_cols hc
  have hiso : "iso3_o" ∈ cepii_existing_cols df vars ∧
      "iso3_d" ∈ cepii_existing_cols df vars := by
    refine ⟨List.mem_filter.mpr ⟨by simp, ?_⟩, List.mem_filter.mpr ⟨by simp, ?_⟩⟩
    · exact List.elem_iff.mpr ho
    · exact List.elem_iff.mpr hd
  have hcagg : c ∈ (cepii_cols_to_keep df vars).filter (fun c => df.cols.contains c) :=
    List.mem_filter.mpr ⟨hc, hcd⟩
  have hagg : (cepii_cols_to_keep df vars).filter (fun c => df.cols.contains c) ≠ [] :=
    List.ne_nil_of_mem hcagg
  have hkg : k ∈ group_keys df.rows := by
    unfold group_keys
    exact List.mem_mergeSort.mpr (List.mem_dedup.mpr hk)
  refine ⟨((cepii_cols_to_keep df vars).filter (fun c => df.cols.contains c)).map
    (fun c => (c, first_nonnull ((df.rows.filter (fun r => rowKey r == k)).map
      (fun r => valAt p (cepii_num_cols df vars) r c)))), ?_, ?_⟩
  · simp only [prepare_cepii_data]
    rw [if_pos hiso, if_neg hagg]
    exact List.mem_map.mpr ⟨k, hkg, rfl⟩
  · exact List.mem_map.mpr ⟨c, hcagg, rfl⟩

/-- C2: for every group of raw pairwise rows sharing the same symmetric
key and every requested attribute, the normalized output row's value for
that attribute is the first non-null value among the group's rows in
their original encounter order, and null when the whole group is null
(no summing or averaging). -/
theorem normalizer_first_nonnull (p : String → Option Rat) (df : CSV) (vars : List String)
    (c : String) (k : String × String)
    (ho : "iso3_o" ∈ df.cols) (hd : "iso3_d" ∈ df.cols)
    (hc : c ∈ cepii_cols_to_keep df vars)
    (hk : k ∈ df.rows.map rowKey) :
    ∃ vals, (k.1 ++ "-" ++ k.2, vals) ∈ prepare_cepii_data p (.ok df) vars ∧
      (c, firstNonNullSpec ((df.rows.filter (fun r => rowKey r == k)).map
        (fun r => valAt p (cepii_num_cols df vars) r c))) ∈ vals := by
  have h := prepare_cepii_mem p df vars c k ho hd hc hk
  rwa [first_nonnull_eq_spec] at h

/-- C6: the pairwise normalizer returns an empty result whenever the
source file is absent, unreadable, missing either identity column
(`iso3_o`, `iso3_d`), or contains none of the requested attributes
(explicit list or wildcard); being a total function, it never raises. -/
theorem normalizer_fail_soft (p : String → Option Rat) (vars : List String) :
    prepare_cepii_data p .missing vars = [] ∧
    prepare_cepii_data p .unreadable vars = [] ∧
    (∀ df : CSV, "iso3_o" ∉ df.cols ∨ "iso3_d" ∉ df.cols →
      prepare_cepii_data p (.ok df) vars = []) ∧
    (∀ df : CSV, vars ≠ ["all"] → (∀ c ∈ vars, c ∉ df.cols) →
      prepare_cepii_data p (.ok df) vars = []) ∧
    (∀ df : CSV, vars = ["all"] →
      (∀ c ∈ all_cepii_cols, c ≠ "iso3_o" → c ≠ "iso3_d" → c ∉ df.cols) →
      prepare_cepii_data p (.ok df) vars = []) := by
  refine ⟨rfl, rfl, ?_, ?_, ?_⟩
  · intro df hmiss
    simp only [prepare_cepii_data]
    rw [if_neg]
    intro ⟨h1, h2⟩
    rcases hmiss with h | h
    · exact h (List.elem_iff.mp (List.mem_filter.mp h1).2)
    · exact h (List.elem_iff.mp (List.mem_filter.mp h2).2)
  · intro df hvars hmiss
    have hkeep : cepii_cols_to_keep df vars = [] := by
      unfold cepii_cols_to_keep
      rw [if_neg hvars]
      refine List.filter_eq_nil_iff.mpr ?_
      intro c hcv hcd
      exact hmiss c hcv (List.elem_iff.mp hcd)
    simp only [prepare_cepii_data, hkeep, List.filter_nil]
    split <;> simp
  · intro df hvars hmiss
    have hkeep : cepii_cols_to_keep df vars = [] := by
      unfold cepii_cols_to_keep
      rw [if_pos hvars]
      refine List.filter_eq_nil_iff.mpr ?_
      intro c hcv
      by_cases h1 : c = "iso3_o"
      · simp [h1]
      · by_cases h2 : c = "iso3_d"
        · simp [h2]
        · intro hb
          rcases (Bool.and_eq_true _ _).mp hb with ⟨_, hcd⟩
          exact hmiss c hcv h1 h2 (List.elem_iff.mp hcd)
    simp only [prepare_cepii_data, hkeep, List.filter_nil]
    split <;> simp

/-- C10: a requested attribute that exists in the source file but is not
in the embedded list of known CEPII columns is carried into the output
with its original string values: its reduced value is the first
non-null raw string of the group, and the numeric parser `p` does not
appear in it. -/
theorem uncoerced_attr_kept_as_string (p : String → Option Rat) (df : CSV)
    (vars : List String) (c : String) (k : String × String)
    (ho : "iso3_o" ∈ df.cols) (hd : "iso3_d" ∈ df.cols)
    (hvars : vars ≠ ["all"]) (hcv : c ∈ vars) (hcd : c ∈ df.cols)
    (hnc : c ∉ all_cepii_cols) (hk : k ∈ df.rows.map rowKey) :
    ∃ vals, (k.1 ++ "-" ++ k.2, vals) ∈ prepare_cepii_data p (.ok df) vars ∧
      (c, firstNonNullSpec ((df.rows.filter (fun r => rowKey r == k)).map
        (fun r => strCell (cellOf r c)))) ∈ vals := by
  have hc : c ∈ cepii_cols_to_keep df vars := by
    unfold cepii_cols_to_keep
    rw [if_neg hvars]
    exact List.mem_filter.mpr ⟨hcv, List.elem_iff.mpr hcd⟩
  have hnn : (cepii_num_cols df vars).contains c = false := by
    rw [Bool.eq_false_iff]
    intro hmem
    have h1 : c ∈ cepii_num_cols df vars := List.elem_iff.mp hmem
    have h2 := (List.mem_filter.mp h1).2
    have h3 : c ∈ all_cepii_cols.filter (fun c => !(["iso3_o", "iso3_d"].contains c)) :=
      List.elem_iff.mp h2
    exact hnc (List.mem_filter.mp h3).1
  have hval : ∀ r : RawRow, valAt p (cepii_num_cols df vars) r c = strCell (cellOf r c) := by
    intro r
    unfold valAt
    rw [hnn]
    rfl
  have h := prepare_cepii_mem p df vars c k ho hd hc hk
  rw [first_nonnull_eq_spec] at h
  simpa [hval] using h

/-! ## Country-code mapper -/

/-- C5: every ISO3 code present in the embedded hardcoded table resolves
to the embedded numeric code even when the external table loaded and
defines a different code for it, and a missing or failed external load
resolves to the embedded table alone. -/
theorem embedded_map_wins (ext : Option (List (String × String))) (iso code : String)
    (h : dict_lookup HARDCODED_COMTRADE_MAP iso = some code) :
    dict_lookup (load_country_mapping ext) iso = some code ∧
    load_country_mapping none = HARDCODED_COMTRADE_MAP := by
  refine ⟨?_, rfl⟩
  rcases ext with _ | rows
  · exact h
  · simp only [load_country_mapping]
    by_cases hre : rows.isEmpty
    · rw [if_pos hre]
      exact h
    · rw [if_neg hre]
      unfold dict_lookup at h ⊢
      rw [List.reverse_append, List.find?_append]
      cases hf : HARDCODED_COMTRADE_MAP.reverse.find? (fun e => e.1 == iso) with
      | none =>
        rw [hf] at h
        simp at h
      | some e =>
        rw [hf] at h
        simpa using h

theorem strLeb_iff (a b : String) : (!strLtb b a) = true ↔ a ≤ b := by
  constructor
  · intro h
    have hb : strLtb b a = false := by simpa using h
    exact (strLtb_eq_false_iff b a).mp hb
  · intro h
    have hb : strLtb b a = false := (strLtb_eq_false_iff b a).mpr h
    simp [hb]

theorem sorted_set_sorted (l : List String) : (sorted_set l).Sorted (· ≤ ·) := by
  have htrans : ∀ a b c : String, (!strLtb b a) = true → (!strLtb c b) = true →
      (!strLtb c a) = true := fun a b c hab hbc =>
    (strLeb_iff a c).mpr (le_trans ((strLeb_iff a b).mp hab) ((strLeb_iff b c).mp hbc))
  have htotal : ∀ a b : String, ((!strLtb b a) || (!strLtb a b)) = true := by
    intro a b
    rcases le_total a b with hab | hba
    · simp [(strLeb_iff a b).mpr hab]
    · simp [(strLeb_iff b a).mpr hba]
  exact List.Pairwise.imp (fun hab => (strLeb_iff _ _).mp hab)
    (List.sorted_mergeSort htrans htotal l.dedup)

theorem sorted_set_nodup (l : List String) : (sorted_set l).Nodup :=
  (List.mergeSort_perm l.dedup _).symm.nodup (List.nodup_dedup l)

theorem mem_sorted_set {l : List String} {a : String} : a ∈ sorted_set l ↔ a ∈ l := by
  unfold sorted_set
  rw [List.mem_mergeSort, List.mem_dedup]

/-- C8: `get_reporter_codes` returns the distinct numeric codes of the
requested reporters in sorted order (of every mapped country for the
wildcard), skipping unmapped ISO3 values; with only the unmapped
`["ZZZ"]` requested it returns the empty set and the trade fetch stage
returns an empty table, raising in neither place (both are total
functions). -/
theorem reporter_codes_sorted_distinct (reporters : List String)
    (cmap : List (String × String)) :
    (get_reporter_codes reporters cmap).Sorted (· ≤ ·) ∧
    (get_reporter_codes reporters cmap).Nodup ∧
    (reporters ≠ ["all"] → ∀ code : String,
      code ∈ get_reporter_codes reporters cmap ↔
        ∃ iso ∈ reporters, dict_lookup cmap (strUpper iso) = some code) ∧
    (reporters = ["all"] → ∀ code : String,
      code ∈ get_reporter_codes reporters cmap ↔ code ∈ dict_values cmap) ∧
    get_reporter_codes ["ZZZ"] HARDCODED_COMTRADE_MAP = [] ∧
    (∀ (fetch : FetchOracle) (years : List Nat) (partners : List String),
      fetch_un_comtrade_data fetch years ["ZZZ"] partners HARDCODED_COMTRADE_MAP = []) := by
  have hzzz : get_reporter_codes ["ZZZ"] HARDCODED_COMTRADE_MAP = [] := by
    have h0 : (["ZZZ"] : List String).filterMap
        (fun iso => dict_lookup HARDCODED_COMTRADE_MAP (strUpper iso)) = [] := by decide
    unfold get_reporter_codes
    rw [if_neg (by decide), h0]
    unfold sorted_set
    simp
  refine ⟨?_, ?_, ?_, ?_, hzzz, ?_⟩
  · unfold get_reporter_codes
    split <;> exact sorted_set_sorted _
  · unfold get_reporter_codes
    split <;> exact sorted_set_nodup _
  · intro hne code
    unfold get_reporter_codes
    rw [if_neg hne, mem_sorted_set, List.mem_filterMap]
  · intro hall code
    unfold get_reporter_codes
    rw [if_pos hall, mem_sorted_set]
  · intro fetch years partners
    unfold fetch_un_comtrade_data
    rw [hzzz]
    rfl

/-! ## Trade fetcher -/

theorem comtrade_merged_congr (f g : FetchOracle) (years : List Nat) (codes : List String)
    (h : ∀ y c, fetch_single f y c = fetch_single g y c) :
    comtrade_merged f years codes = comtrade_merged g years codes := by
  have h2 : (fun y => codes.flatMap (fun c => fetch_single f y c)) =
      (fun y => codes.flatMap (fun c => fetch_single g y c)) := by
    funext y
    congr 1
    funext c
    exact h y c
  unfold comtrade_merged
  rw [h2]

/-- C3: an error for a single (year, reporter) unit makes that unit
contribute zero rows and loses nothing else: the run-wide table is the
one an error-free oracle returning no rows for that unit would produce,
and every row of every successfully fetched unit is still in it. -/
theorem unit_failure_isolated (fetch : FetchOracle) (years : List Nat) (codes : List String)
    (Y : Nat) (R : String) (e : String) (hf : fetch Y R = .error e) :
    fetch_single fetch Y R = [] ∧
    comtrade_merged fetch years codes =
      comtrade_merged (fun y c => if y = Y ∧ c = R then .ok [] else fetch y c) years codes ∧
    (∀ y ∈ years, ∀ c ∈ codes, ∀ rows, fetch y c = .ok rows →
      ∀ t ∈ rows, t ∈ comtrade_merged fetch years codes) := by
  have h1 : fetch_single fetch Y R = [] := by
    unfold fetch_single
    rw [hf]
  refine ⟨h1, ?_, ?_⟩
  · apply comtrade_merged_congr
    intro y c
    unfold fetch_single
    by_cases hyc : y = Y ∧ c = R
    · obtain ⟨rfl, rfl⟩ := hyc
      rw [hf]
      simp
    · simp only []
      rw [if_neg hyc]
  · intro y hy c hc rows hr t ht
    unfold comtrade_merged
    refine List.mem_flatMap.mpr ⟨y, hy, List.mem_flatMap.mpr ⟨c, hc, ?_⟩⟩
    unfold fetch_single
    rw [hr]
    exact ht

/-- C7: after concatenation, a non-wildcard partner list retains exactly
the rows whose partner ISO3 is in the list (same multiplicity, original
order) and removes all others; the wildcard `["all"]` removes no row. -/
theorem partner_filter_exact (partners : List String) (rows : List TradeRowRaw) :
    (partners ≠ ["all"] →
      (partner_filter partners rows).Sublist rows ∧
      (∀ r : TradeRowRaw, r.partnerISO ∈ partners →
        (partner_filter partners rows).count r = rows.count r) ∧
      (∀ r : TradeRowRaw, r.partnerISO ∉ partners →
        (partner_filter partners rows).count r = 0)) ∧
    (partners = ["all"] → partner_filter partners rows = rows) := by
  constructor
  · intro hne
    have hpf : partner_filter partners rows =
        rows.filter (fun r => partners.contains r.partnerISO) := by
      unfold partner_filter get_partner_iso_list
      rw [if_neg hne]
    refine ⟨?_, ?_, ?_⟩
    · rw [hpf]
      exact List.filter_sublist rows
    · intro r hr
      rw [hpf]
      exact List.count_filter (List.elem_iff.mpr hr)
    · intro r hr
      rw [hpf]
      refine List.count_eq_zero.mpr ?_
      intro hmem
      exact hr (List.elem_iff.mp (List.mem_filter.mp hmem).2)
  · intro hall
    unfold partner_filter get_partner_iso_list
    rw [if_pos hall]

/-! ## Merge engine -/

/-- C9: a non-empty trade table with neither a `period` nor a `year`
column makes the merge engine raise (`KeyError` from the unconditional
`year` access) instead of returning a degraded result. -/
theorem merge_requires_year_column (tradeCols : List String) (nrows : Nat)
    (hnr : nrows ≠ 0) (hne : tradeCols ≠ [])
    (hp : "period" ∉ tradeCols) (hy : "year" ∉ tradeCols) :
    merge_year_step tradeCols nrows = .error "KeyError: year" := by
  have hpc : tradeCols.contains "period" = false :=
    Bool.eq_false_iff.mpr (fun hb => hp (List.elem_iff.mp hb))
  have hyc : tradeCols.contains "year" = false :=
    Bool.eq_false_iff.mpr (fun hb => hy (List.elem_iff.mp hb))
  unfold merge_year_step
  rw [if_neg (by simp [hnr, hne])]
  simp [hpc, hyc, hp, hy]

theorem filter_length_le_one {β : Type} {R : β → β → Prop} {l : List β} (hl : l.Pairwise R)
    {p : β → Bool} (hp : ∀ b1 b2, p b1 = true → p b2 = true → ¬ R b1 b2) :
    (l.filter p).length ≤ 1 := by
  induction l with
  | nil => simp
  | cons b l ih =>
    rcases List.pairwise_cons.mp hl with ⟨hb, hl'⟩
    by_cases hpb : p b = true
    · have hrest : l.filter p = [] := by
        refine List.filter_eq_nil_iff.mpr ?_
        intro b' hb' hpb'
        exact hp b b' hpb hpb' (hb b' hb')
      simp [List.filter_cons, hpb, hrest]
    · simp only [List.filter_cons, if_neg hpb]
      exact ih hl'

theorem left_join_eq_map {α β γ : Type} (left : List α) (right : List β)
    (matchRow : α → β → Bool) (emb : α → Option β → γ)
    (h : ∀ a, (right.filter (matchRow a)).length ≤ 1) :
    left_join left right matchRow emb =
      left.map (fun a => emb a ((right.filter (matchRow a)).head?)) := by
  induction left with
  | nil => rfl
  | cons a l ih =>
    unfold left_join at ih ⊢
    simp only [List.flatMap_cons, List.map_cons]
    rw [ih]
    cases hf : right.filter (matchRow a) with
    | nil => simp [hf]
    | cons b bs =>
      have hlen := h a
      rw [hf] at hlen
      cases bs with
      | nil => simp [hf]
      | cons b2 bs2 => simp at hlen

theorem wb_reporter_filter_le_one {df_wb : List WBRow}
    (hwb : df_wb.Pairwise (fun a b => ¬(a.countryISO = b.countryISO ∧ a.year = b.year)))
    (t : TradeRow) :
    (df_wb.filter (fun w => wb_match_reporter t w)).length ≤ 1 := by
  refine filter_length_le_one hwb ?_
  intro w1 w2 h1 h2 hR
  unfold wb_match_reporter at h1 h2
  rcases (Bool.and_eq_true _ _).mp h1 with ⟨ha1, hy1⟩
  rcases (Bool.and_eq_true _ _).mp h2 with ⟨ha2, hy2⟩
  apply hR
  constructor
  · rw [← beq_iff_eq.mp ha1, ← beq_iff_eq.mp ha2]
  · exact Option.some.inj ((beq_iff_eq.mp hy1).symm.trans (beq_iff_eq.mp hy2))

theorem wb_partner_filter_le_one {df_wb : List WBRow}
    (hwb : df_wb.Pairwise (fun a b => ¬(a.countryISO = b.countryISO ∧ a.year = b.year)))
    (t : TradeRow) :
    (df_wb.filter (fun w => wb_match_partner t w)).length ≤ 1 := by
  refine filter_length_le_one hwb ?_
  intro w1 w2 h1 h2 hR
  unfold wb_match_partner at h1 h2
  rcases (Bool.and_eq_true _ _).mp h1 with ⟨ha1, hy1⟩
  rcases (Bool.and_eq_true _ _).mp h2 with ⟨ha2, hy2⟩
  apply hR
  constructor
  · rw [← beq_iff_eq.mp ha1, ← beq_iff_eq.mp ha2]
  · exact Option.some.inj ((beq_iff_eq.mp hy1).symm.trans (beq_iff_eq.mp hy2))

theorem cepii_filter_le_one {df_cepii : List CepiiRow}
    (hcep : df_cepii.Pairwise (fun a b => a.1 ≠ b.1)) (t : TradeRow) :
    (df_cepii.filter (fun c => cepii_match t c)).length ≤ 1 := by
  refine filter_length_le_one hcep ?_
  intro c1 c2 h1 h2 hR
  unfold cepii_match at h1 h2
  exact hR (by rw [← beq_iff_eq.mp h1, ← beq_iff_eq.mp h2])

theorem merge_datasets_eq_map (toNum : String → Option Int) (df_wb : List WBRow)
    (df_trade : List TradeRowRaw) (df_cepii : List CepiiRow)
    (hwb : df_wb.Pairwise (fun a b => ¬(a.countryISO = b.countryISO ∧ a.year = b.year)))
    (hcep : df_cepii.Pairwise (fun a b => a.1 ≠ b.1)) :
    merge_datasets toNum df_wb df_trade df_cepii =
      df_trade.map (merge_row toNum df_wb df_cepii) := by
  simp only [merge_datasets]
  by_cases htr : df_trade.isEmpty
  · rw [if_pos htr, List.isEmpty_iff.mp htr]
    rfl
  · rw [if_neg htr]
    rw [left_join_eq_map _ _ _ _
      (fun (t : TradeRow) => wb_reporter_filter_le_one hwb t)]
    rw [left_join_eq_map _ _ _ _
      (fun (x : TradeRow × Option WBRow) => wb_partner_filter_le_one hwb x.1)]
    by_cases hce : df_cepii.isEmpty
    · rw [if_pos hce]
      simp only [List.map_map]
      refine List.map_congr_left ?_
      intro traw _
      unfold merge_row
      rw [if_pos hce]
      rfl
    · rw [if_neg hce]
      rw [left_join_eq_map _ _ _ _
        (fun (x : TradeRow × Option WBRow × Option WBRow) => cepii_filter_le_one hcep x.1)]
      simp only [List.map_map]
      refine List.map_congr_left ?_
      intro traw _
      unfold merge_row
      rw [if_neg hce]
      rfl

/-- C4: when the indicator table is unique per (country, year) and the
normalized pairwise table unique per symmetric key, the merge output
has exactly one row per input trade row, in order, none dropped and
none duplicated by any of the three left joins, and unmatched rows
carry missing values in the newly joined columns. -/
theorem merge_preserves_trade_rows (toNum : String → Option Int) (df_wb : List WBRow)
    (df_trade : List TradeRowRaw) (df_cepii : List CepiiRow)
    (hwb : df_wb.Pairwise (fun a b => ¬(a.countryISO = b.countryISO ∧ a.year = b.year)))
    (hcep : df_cepii.Pairwise (fun a b => a.1 ≠ b.1)) :
    (merge_datasets toNum df_wb df_trade df_cepii).map MergedRow.trade =
      df_trade.map (coerce_trade_year toNum) ∧
    (merge_datasets toNum df_wb df_trade df_cepii).length = df_trade.length ∧
    ∀ m ∈ merge_datasets toNum df_wb df_trade df_cepii,
      ((∀ w ∈ df_wb, wb_match_reporter m.trade w = false) → m.wb_reporter = none) ∧
      ((∀ w ∈ df_wb, wb_match_partner m.trade w = false) → m.wb_partner = none) ∧
      ((∀ c ∈ df_cepii, cepii_match m.trade c = false) → m.cepii = none) := by
  have heq := merge_datasets_eq_map toNum df_wb df_trade df_cepii hwb hcep
  refine ⟨?_, ?_, ?_⟩
  · rw [heq, List.map_map]
    rfl
  · rw [heq, List.length_map]
  · intro m hm
    rw [heq] at hm
    obtain ⟨traw, htr, rfl⟩ := List.mem_map.mp hm
    refine ⟨?_, ?_, ?_⟩
    · intro hnm
      show ((df_wb.filter (wb_match_reporter (coerce_trade_year toNum traw))).head? = none)
      rw [List.filter_eq_nil_iff.mpr ?_]
      · rfl
      · intro w hw
        have hfw : wb_match_reporter (coerce_trade_year toNum traw) w = false := hnm w hw
        simp [hfw]
    · intro hnm
      show ((df_wb.filter (wb_match_partner (coerce_trade_year toNum traw))).head? = none)
      rw [List.filter_eq_nil_iff.mpr ?_]
      · rfl
      · intro w hw
        have hfw : wb_match_partner (coerce_trade_year toNum traw) w = false := hnm w hw
        simp [hfw]
    · intro hnm
      by_cases hce : df_cepii.isEmpty
      · show (if df_cepii.isEmpty then none
          else (df_cepii.filter (cepii_match (coerce_trade_year toNum traw))).head?) = none
        rw [if_pos hce]
      · show (if df_cepii.isEmpty then none
          else (df_cepii.filter (cepii_match (coerce_trade_year toNum traw))).head?) = none
        rw [if_neg hce, List.filter_eq_nil_iff.mpr ?_]
        · rfl
        · intro cr hcr
          have hfc : cepii_match (coerce_trade_year toNum traw) cr = false := hnm cr hcr
          simp [hfc]

/-! ## Closed instances -/

/-- Instance of C2's theorem on the sample CSV at attribute `contig`
and pair key (THA, USA). -/
theorem normalizer_first_nonnull_witness :
    ("iso3_o" ∈ csvSample.cols ∧ "iso3_d" ∈ csvSample.cols ∧
      "contig" ∈ cepii_cols_to_keep csvSample ["contig", "note"] ∧
      ("THA", "USA") ∈ csvSample.rows.map rowKey) ∧
    (∃ vals, ("THA" ++ "-" ++ "USA", vals) ∈
        prepare_cepii_data pSample (.ok csvSample) ["contig", "note"] ∧
      ("contig", firstNonNullSpec ((csvSample.rows.filter
          (fun r => rowKey r == ("THA", "USA"))).map
        (fun r => valAt pSample (cepii_num_cols csvSample ["contig", "note"]) r "contig"))) ∈
        vals) :=
  ⟨⟨by decide, by decide, by decide, by decide⟩,
   normalizer_first_nonnull pSample csvSample ["contig", "note"] "contig" ("THA", "USA")
     (by decide) (by decide) (by decide) (by decide)⟩

/-- Instance of C6's theorem: a frame missing both identity columns
yields the empty result. -/
theorem normalizer_fail_soft_witness :
    ("iso3_o" ∉ (CSV.mk ["x"] []).cols ∨ "iso3_d" ∉ (CSV.mk ["x"] []).cols) ∧
    prepare_cepii_data pSample (.ok (CSV.mk ["x"] [])) ["contig"] = [] :=
  ⟨by decide, (normalizer_fail_soft pSample ["contig"]).2.2.1 (CSV.mk ["x"] []) (by decide)⟩

/-- Instance of C10's theorem on the sample CSV at the non-CEPII
attribute `note`. -/
theorem uncoerced_attr_kept_as_string_witness :
    ("iso3_o" ∈ csvSample.cols ∧ "iso3_d" ∈ csvSample.cols ∧
      (["contig", "note"] : List String) ≠ ["all"] ∧
      "note" ∈ (["contig", "note"] : List String) ∧ "note" ∈ csvSample.cols ∧
      "note" ∉ all_cepii_cols ∧ ("THA", "USA") ∈ csvSample.rows.map rowKey) ∧
    (∃ vals, ("THA" ++ "-" ++ "USA", vals) ∈
        prepare_cepii_data pSample (.ok csvSample) ["contig", "note"] ∧
      ("note", firstNonNullSpec ((csvSample.rows.filter
          (fun r => rowKey r == ("THA", "USA"))).map
        (fun r => strCell (cellOf r "note")))) ∈ vals) :=
  ⟨⟨by decide, by decide, by decide, by decide, by decide, by decide, by decide⟩,
   uncoerced_attr_kept_as_string pSample csvSample ["contig", "note"] "note" ("THA", "USA")
     (by decide) (by decide) (by decide) (by decide) (by decide) (by decide) (by decide)⟩

/-- Instance of C5's theorem: an external table that maps THA to 999 is
overridden by the embedded code 764. -/
theorem embedded_map_wins_witness :
    dict_lookup HARDCODED_COMTRADE_MAP "THA" = some "764" ∧
    (dict_lookup (load_country_mapping (some [("THA", "999")])) "THA" = some "764" ∧
     load_country_mapping none = HARDCODED_COMTRADE_MAP) :=
  ⟨by decide, embedded_map_wins (some [("THA", "999")]) "THA" "764" (by decide)⟩

/-- Instance of C8's theorem at the mixed-case, partly unmapped request
`["tha", "ZZZ"]` and code 764. -/
theorem reporter_codes_sorted_distinct_witness :
    (["tha", "ZZZ"] : List String) ≠ ["all"] ∧
    ("764" ∈ get_reporter_codes ["tha", "ZZZ"] HARDCODED_COMTRADE_MAP ↔
      ∃ iso ∈ (["tha", "ZZZ"] : List String),
        dict_lookup HARDCODED_COMTRADE_MAP (strUpper iso) = some "764") :=
  ⟨by decide,
   (reporter_codes_sorted_distinct ["tha", "ZZZ"] HARDCODED_COMTRADE_MAP).2.2.1
     (by decide) "764"⟩

/-- Instance of C3's theorem on the sample oracle whose (2015, "764")
unit times out. -/
theorem unit_failure_isolated_witness :
    fetchSample 2015 "764" = Except.error "timeout" ∧
    (fetch_single fetchSample 2015 "764" = [] ∧
     comtrade_merged fetchSample [2015] ["764", "842"] =
       comtrade_merged
         (fun y c => if y = 2015 ∧ c = "764" then Except.ok [] else fetchSample y c)
         [2015] ["764", "842"] ∧
     (∀ y ∈ [2015], ∀ c ∈ (["764", "842"] : List String), ∀ rows,
       fetchSample y c = Except.ok rows →
       ∀ t ∈ rows, t ∈ comtrade_merged fetchSample [2015] ["764", "842"])) :=
  ⟨rfl,
   unit_failure_isolated fetchSample [2015] ["764", "842"] 2015 "764" "timeout" rfl⟩

/-- Instance of C7's theorem at the non-wildcard partner list ["THA"]. -/
theorem partner_filter_exact_witness :
    (["THA"] : List String) ≠ ["all"] ∧
    ((partner_filter ["THA"] tradeSample).Sublist tradeSample ∧
     (∀ r : TradeRowRaw, r.partnerISO ∈ (["THA"] : List String) →
       (partner_filter ["THA"] tradeSample).count r = tradeSample.count r) ∧
     (∀ r : TradeRowRaw, r.partnerISO ∉ (["THA"] : List String) →
       (partner_filter ["THA"] tradeSample).count r = 0)) :=
  ⟨by decide, (partner_filter_exact ["THA"] tradeSample).1 (by decide)⟩

/-- Instance of C4's theorem on the sample tables. -/
theorem merge_preserves_trade_rows_witness :
    (wbSample.Pairwise (fun a b => ¬(a.countryISO = b.countryISO ∧ a.year = b.year)) ∧
     cepiiSample.Pairwise (fun a b => a.1 ≠ b.1)) ∧
    ((merge_datasets toNumSample wbSample tradeSample cepiiSample).map MergedRow.trade =
       tradeSample.map (coerce_trade_year toNumSample) ∧
     (merge_datasets toNumSample wbSample tradeSample cepiiSample).length =
       tradeSample.length ∧
     ∀ m ∈ merge_datasets toNumSample wbSample tradeSample cepiiSample,
       ((∀ w ∈ wbSample, wb_match_reporter m.trade w = false) → m.wb_reporter = none) ∧
       ((∀ w ∈ wbSample, wb_match_partner m.trade w = false) → m.wb_partner = none) ∧
       ((∀ c ∈ cepiiSample, cepii_match m.trade c = false) → m.cepii = none)) :=
  ⟨⟨by decide, by decide⟩,
   merge_preserves_trade_rows toNumSample wbSample tradeSample cepiiSample
     (by decide) (by decide)⟩

/-- Instance of C9's theorem on a two-column header without `period` or
`year`. -/
theorem merge_requires_year_column_witness :
    ((1 : Nat) ≠ 0 ∧ (["reporterISO", "partnerISO"] : List String) ≠ [] ∧
      "period" ∉ (["reporterISO", "partnerISO"] : List String) ∧
      "year" ∉ (["reporterISO", "partnerISO"] : List String)) ∧
    merge_year_step ["reporterISO", "partnerISO"] 1 = Except.error "KeyError: year" :=
  ⟨⟨by decide, by decide, by decide, by decide⟩,
   merge_requires_year_column ["reporterISO", "partnerISO"] 1
     (by decide) (by decide) (by decide) (by decide)⟩

end TradeAnalysis
